import Mathlib

/-!
Shallow embedding of the Spinnaker-Examples repository pieces under test:
the disparity-to-point-cloud projector and PLY writer of
`StereoDL/Foundation Stereo/PySpin_inference.py` (identical in
`StereoDL/End to End Deep Stereo/pyspin_inference.py`), the depth
colorization of `UtilityStereo/ImageUtilityStereo.py`, the pixel distance
query of `StereoDL/Neural Disparity Refinement/refinement.py`, and the
argument handling of `FileAccess_UserSet/FileAccessUserSet.py`.

Real-valued float arithmetic is embedded as exact rational arithmetic (ℚ);
machine floats' rounding is not modelled.  numpy arrays are embedded as
functions from pixel coordinates plus explicit dimensions, with boolean-mask
indexing flattened in row-major order as numpy does.
-/

/-- Python max of two rationals. -/
def pyMax (a b : ℚ) : ℚ :=
  if a ≤ b then b else a

/-- Python min of two rationals. -/
def pyMin (a b : ℚ) : ℚ :=
  if a ≤ b then a else b

/-- np.clip(v, lo, hi) = min(max(v, lo), hi) on one scalar. -/
def npClip (v lo hi : ℚ) : ℚ :=
  pyMin (pyMax v lo) hi

/-- cvRound: rounding to the nearest integer (half rounded up), as used by
cv2.convertScaleAbs. -/
def cvRound (x : ℚ) : ℤ :=
  ⌊x + 1 / 2⌋

namespace StereoDL

/-- Stereo parameter record, mirroring the PySpin StereoCameraParameters
fields listed in the spec's data model; the two inference scripts populate
baseline, focalLength, principalPointU and principalPointV from the camera. -/
structure StereoParameters where
  baseline : ℚ
  focalLength : ℚ
  principalPointU : ℚ
  principalPointV : ℚ
  coordinateOffset : ℚ
  disparityScaleFactor : ℚ
  invalidDataValue : ℚ
  invalidDataFlag : Bool

/-- MAX_DEPTH = 10.0 meters, from the top of both inference scripts. -/
def MAX_DEPTH : ℚ := 10

/-- MIN_DISP = max(1e-6, focalLength * baseline / MAX_DEPTH), from
disparity_to_pointcloud. -/
def MIN_DISP (p : StereoParameters) : ℚ :=
  pyMax (1 / 1000000) (p.focalLength * p.baseline / MAX_DEPTH)

/-- Row-major list of pixel coordinates (v, u) of an h x w frame, the order
in which numpy boolean-mask indexing flattens a 2-D array. -/
def pixelList (h w : ℕ) : List (ℕ × ℕ) :=
  (List.range h).flatMap fun v => (List.range w).map fun u => (v, u)

/-- Pixels passing the validity mask `disp > MIN_DISP`, in row-major order. -/
def validPixels (h w : ℕ) (disp : ℕ × ℕ → ℚ) (p : StereoParameters) : List (ℕ × ℕ) :=
  (pixelList h w).filter fun q => MIN_DISP p < disp q

/-- cv2.reprojectImageTo3D at one pixel with the Q matrix built in
disparity_to_pointcloud: homogeneous (X, Y, Z, W) = Q · (u, v, d, 1) with
X = u - principalPointU, Y = v - principalPointV, Z = focalLength,
W = d · (1 / baseline), output (X/W, Y/W, Z/W). -/
def reproject (p : StereoParameters) (u v d : ℚ) : ℚ × ℚ × ℚ :=
  let X := u - p.principalPointU
  let Y := v - p.principalPointV
  let Z := p.focalLength
  let W := d * (1 / p.baseline)
  (X / W, Y / W, Z / W)

/-- The in-place sign flips `pts[:, 1] *= -1.0; pts[:, 2] *= -1.0`. -/
def flipPoint (t : ℚ × ℚ × ℚ) : ℚ × ℚ × ℚ :=
  (t.1, -t.2.1, -t.2.2)

/-- Color of one pixel: BGR channel triple reversed to RGB and divided
by 255, as in `left_img_bgr.astype(np.float32)[:, :, ::-1] / 255.0`. -/
def bgrToRgbNorm (c : ℚ × ℚ × ℚ) : ℚ × ℚ × ℚ :=
  (c.2.2 / 255, c.2.1 / 255, c.1 / 255)

/-- Helper for the numpy slice `a[::k]`: c counts down to the next kept
element. -/
def everyNthAux {α : Type*} (k : ℕ) : ℕ → List α → List α
  | _, [] => []
  | c, a :: as => if c = 0 then a :: everyNthAux k (k - 1) as else everyNthAux k (c - 1) as

/-- The numpy slice `a[::k]`: every k-th element starting from the first. -/
def everyNth {α : Type*} (k : ℕ) (l : List α) : List α :=
  everyNthAux k 0 l

/-- disparity_to_pointcloud from the two inference scripts: mask
`disp > MIN_DISP`, reproject each masked pixel through Q, take its color
from the left image, flip the Y and Z axes, then decimate both arrays with
`[::decimation]` when decimation > 1.  Returns (points, colors). -/
def disparity_to_pointcloud (h w : ℕ) (disp : ℕ × ℕ → ℚ) (img : ℕ × ℕ → ℚ × ℚ × ℚ)
    (p : StereoParameters) (decimation : ℕ) : List (ℚ × ℚ × ℚ) × List (ℚ × ℚ × ℚ) :=
  let valid := validPixels h w disp p
  let pts := valid.map fun q => flipPoint (reproject p (q.2 : ℚ) (q.1 : ℚ) (disp q))
  let colors := valid.map fun q => bgrToRgbNorm (img q)
  if 1 < decimation then (everyNth decimation pts, everyNth decimation colors)
  else (pts, colors)

/-- One line of the PLY file: a literal header line, the
`element vertex n` line, or a data line carrying the three coordinates
(written by the script with six decimal places) and the three 0-255 color
components. -/
inductive PlyLine where
  | text : String → PlyLine
  | vertex : ℕ → PlyLine
  | data : ℚ → ℚ → ℚ → ℕ → ℕ → ℕ → PlyLine
deriving DecidableEq

/-- Header lines written by write_ply, in order. -/
def plyHeader (n : ℕ) : List PlyLine :=
  [PlyLine.text "ply", PlyLine.text "format ascii 1.0", PlyLine.vertex n,
   PlyLine.text "property float x", PlyLine.text "property float y",
   PlyLine.text "property float z", PlyLine.text "property uchar red",
   PlyLine.text "property uchar green", PlyLine.text "property uchar blue",
   PlyLine.text "end_header"]

/-- np.clip(c * 255.0, 0, 255).astype(np.uint8) on one channel: clip then
truncate to an unsigned byte. -/
def toU8 (c : ℚ) : ℕ :=
  Int.toNat ⌊npClip (c * 255) 0 255⌋

/-- write_ply from the two inference scripts.  `none` models the early
return that writes no file when there are zero points; otherwise the
result is the list of lines written, header then one data line per
zipped (point, color) pair. -/
def write_ply (points colors : List (ℚ × ℚ × ℚ)) : Option (List PlyLine) :=
  if points.length = 0 then none
  else some (plyHeader points.length ++
    (points.zip colors).map fun pc =>
      PlyLine.data pc.1.1 pc.1.2.1 pc.1.2.2 (toU8 pc.2.1) (toU8 pc.2.2.1) (toU8 pc.2.2.2))

end StereoDL

namespace ImageUtilityStereo

/-- MAX_DEPTH = 20000 (millimeters), from ImageUtilityStereo.py. -/
def MAX_DEPTH : ℚ := 20000

/-- Display color of one pixel: either an index into the fixed JET palette
(cv2.applyColorMap) or the forced black sentinel written by
`depth_colormap[~mask_valid] = (0, 0, 0)`. -/
inductive DisplayColor where
  | palette : ℕ → DisplayColor
  | black : DisplayColor
deriving DecidableEq

/-- Per-pixel depth colorization from acquire_images in
ImageUtilityStereo.py: mask_valid = (v >= 0) & (v <= MAX_DEPTH),
clip to [0, MAX_DEPTH], cv2.convertScaleAbs with alpha = 255/MAX_DEPTH
(round then saturate to a byte), apply the palette, then force pixels
failing the mask to black. -/
def colorizeDepth (v : ℚ) : DisplayColor :=
  let clipped := npClip v 0 MAX_DEPTH
  let idx := Nat.min (Int.toNat (cvRound (clipped * (255 / MAX_DEPTH)))) 255
  if 0 ≤ v ∧ v ≤ MAX_DEPTH then DisplayColor.palette idx else DisplayColor.black

end ImageUtilityStereo

namespace Refinement

/-- Pixel distance query from refinement.py:
`stereo_params.focalLength * stereo_params.baseline / val if val > 0 else float('inf')`,
with the float infinity sentinel embedded as ⊤. -/
def pixelDistance (focalLength baseline d : ℚ) : WithTop ℚ :=
  if 0 < d then ((focalLength * baseline / d : ℚ) : WithTop ℚ) else ⊤

end Refinement

namespace FileAccessUserSet

/-- ASCII lowering of one character, as Python str.lower acts on the ASCII
command-line arguments of the example. -/
def lowerChar (c : Char) : Char :=
  if 'A' ≤ c ∧ c ≤ 'Z' then Char.ofNat (c.toNat + 32) else c

/-- Python `s.lower()` on an ASCII string. -/
def pyLower (s : String) : String :=
  String.mk (s.data.map lowerChar)

/-- parse_args from FileAccessUserSet.py: exactly two arguments, the first
matching 'upload' or 'download' case-insensitively; on success the original
argument list is returned unchanged. -/
def parse_args (args : List String) : Option (List String) :=
  if args.length ≠ 2 then none
  else if pyLower (args.headD "") ≠ "upload" ∧ pyLower (args.headD "") ≠ "download" then none
  else some args

/-- The two camera file operations main can dispatch to. -/
inductive FileOp where
  | download : FileOp
  | upload : FileOp
deriving DecidableEq

/-- Success message printed by main when `result` is still True. -/
def successMsg : String := "Example completed successfully!"

/-- Failure message printed by main when some operation failed. -/
def errorMsg : String := "Example completed with some errors."

/-- main from FileAccessUserSet.py after camera setup, with the success of
the two camera operations abstracted as booleans: parse the arguments
(returning none on the early exit), dispatch on `args[0] == 'download'` /
`args[0] == 'upload'` by exact comparison, and report which operation ran
and which completion message is printed (`result` starts True and is only
and-ed with an operation's outcome in the matching branch). -/
def mainRun (args : List String) (downloadOk uploadOk : Bool) :
    Option (Option FileOp × String) :=
  match parse_args args with
  | none => none
  | some as =>
    let a0 := as.headD ""
    let step : Option FileOp × Bool :=
      if a0 = "download" then (some FileOp.download, downloadOk)
      else if a0 = "upload" then (some FileOp.upload, uploadOk)
      else (none, true)
    some (step.1, if step.2 then successMsg else errorMsg)

end FileAccessUserSet

namespace StereoDL

/-- Unit stereo parameters: baseline 1, focal length 1, principal point at
the origin, invalid-data sentinel 0. -/
def pOne : StereoParameters :=
  ⟨1, 1, 0, 0, 0, 0, 0, false⟩

/-- Stereo parameters whose invalid-data sentinel is the positive value 5,
inside the valid disparity range. -/
def pInv5 : StereoParameters :=
  ⟨1, 1, 0, 0, 0, 0, 5, false⟩

end StereoDL

lemma le_pyMax_left (a b : ℚ) : a ≤ pyMax a b := by
  by_cases hab : a ≤ b
  · simp [pyMax, hab]
  · simp [pyMax, hab]

lemma le_pyMax_right (a b : ℚ) : b ≤ pyMax a b := by
  by_cases hab : a ≤ b
  · simp [pyMax, hab]
  · simp [pyMax, hab]
    exact le_of_lt (lt_of_not_le hab)

lemma pyMin_le_right (a b : ℚ) : pyMin a b ≤ b := by
  by_cases hab : a ≤ b
  · simp [pyMin, hab]
  · simp [pyMin, hab]

namespace StereoDL

lemma MIN_DISP_pos (p : StereoParameters) : 0 < MIN_DISP p :=
  lt_of_lt_of_le (by norm_num) (le_pyMax_left _ _)

lemma length_pixelList (h w : ℕ) : (pixelList h w).length = h * w := by
  rw [pixelList, List.length_flatMap]
  simp [Function.comp_def, List.map_const', List.sum_replicate, smul_eq_mul]

lemma mem_pixelList {h w : ℕ} {q : ℕ × ℕ} :
    q ∈ pixelList h w ↔ q.1 < h ∧ q.2 < w := by
  obtain ⟨v, u⟩ := q
  simp only [pixelList, List.mem_flatMap, List.mem_map, List.mem_range, Prod.mk.injEq]
  constructor
  · rintro ⟨a, ha, b, hb, rfl, rfl⟩
    exact ⟨ha, hb⟩
  · rintro ⟨hv, hu⟩
    exact ⟨v, hv, u, hu, rfl, rfl⟩

lemma mem_validPixels {h w : ℕ} {disp : ℕ × ℕ → ℚ} {p : StereoParameters} {q : ℕ × ℕ} :
    q ∈ validPixels h w disp p ↔ (q.1 < h ∧ q.2 < w) ∧ MIN_DISP p < disp q := by
  simp [validPixels, List.mem_filter, mem_pixelList]

lemma everyNthAux_length {α : Type*} (k : ℕ) (hk : 1 ≤ k) :
    ∀ (l : List α) (c : ℕ), c ≤ k - 1 →
      (everyNthAux k c l).length = (l.length + (k - 1) - c) / k := by
  intro l
  induction l with
  | nil =>
    intro c hc
    simp only [everyNthAux, List.length_nil]
    exact (Nat.div_eq_of_lt (by omega)).symm
  | cons a as ih =>
    intro c hc
    by_cases h0 : c = 0
    · subst h0
      simp only [everyNthAux, if_true, List.length_cons]
      rw [ih (k - 1) le_rfl]
      have h1 : as.length + (k - 1) - (k - 1) = as.length := by omega
      have h2 : as.length + 1 + (k - 1) - 0 = as.length + k := by omega
      rw [h1, h2, Nat.add_div_right _ (by omega)]
    · simp only [everyNthAux, if_neg h0, List.length_cons]
      rw [ih (c - 1) (by omega)]
      congr 1
      omega

lemma everyNth_length {α : Type*} (k : ℕ) (hk : 1 ≤ k) (l : List α) :
    (everyNth k l).length = (l.length + k - 1) / k := by
  rw [everyNth, everyNthAux_length k hk l 0 (by omega)]
  congr 1
  omega

lemma length_pointcloud (h w k : ℕ) (disp : ℕ × ℕ → ℚ) (img : ℕ × ℕ → ℚ × ℚ × ℚ)
    (p : StereoParameters) (hk : 1 ≤ k) :
    (disparity_to_pointcloud h w disp img p k).1.length
      = ((validPixels h w disp p).length + k - 1) / k := by
  by_cases h1 : 1 < k
  · simp only [disparity_to_pointcloud, if_pos h1]
    rw [everyNth_length k hk, List.length_map]
  · have hk1 : k = 1 := by omega
    subst hk1
    simp only [disparity_to_pointcloud, if_neg h1]
    rw [List.length_map, Nat.add_sub_cancel, Nat.div_one]

lemma toU8_le_255 (c : ℚ) : toU8 c ≤ 255 := by
  have h1 : npClip (c * 255) 0 255 ≤ 255 := pyMin_le_right _ _
  have h2 : ⌊npClip (c * 255) 0 255⌋ ≤ (255 : ℤ) := by
    calc ⌊npClip (c * 255) 0 255⌋ ≤ ⌊(255 : ℚ)⌋ := Int.floor_le_floor h1
    _ = 255 := by norm_num
  rw [toU8]
  omega

end StereoDL

namespace StereoDL

/-- C1 counterexample: the claim says write_ply on a zero-point cloud
produces a valid file holding only the header (with `element vertex 0`);
on the empty point cloud the code instead takes the early `return` and
writes no file at all, embedded as the `none` result. -/
theorem write_ply_empty_counterexample : write_ply ([] : List (ℚ × ℚ × ℚ)) [] = none := rfl

/-- C1 (amended): for every PointCloud with zero points, write_ply returns
without error but writes no file at all — not a header-only file; it prints
a "No points to save" notice and skips the file entirely. -/
theorem write_ply_empty_no_file (colors : List (ℚ × ℚ × ℚ)) :
    write_ply ([] : List (ℚ × ℚ × ℚ)) colors = none := rfl

/-- C3 (amended): a pixel with disparity d ≤ 0 contributes no point, and a
pixel contributes a point only when d > focalLength·baseline / MAX_DEPTH;
the code performs no separate sentinel-equality check, so a pixel whose
disparity equals invalidDataValue is excluded exactly when the sentinel
value itself fails the `d > MIN_DISP` threshold — in particular whenever
invalidDataValue ≤ 0, the typical sentinel.  validPixels is the mask stage
of disparity_to_pointcloud: only its members produce points. -/
theorem mask_excludes_nonpositive_and_threshold (h w : ℕ) (disp : ℕ × ℕ → ℚ)
    (p : StereoParameters) (q : ℕ × ℕ) :
    (disp q ≤ 0 → q ∉ validPixels h w disp p)
    ∧ (p.invalidDataValue ≤ MIN_DISP p → disp q = p.invalidDataValue →
        q ∉ validPixels h w disp p)
    ∧ (q ∈ validPixels h w disp p →
        p.focalLength * p.baseline / MAX_DEPTH < disp q) := by
  refine ⟨?_, ?_, ?_⟩
  · intro hd hq
    have h1 := (mem_validPixels.mp hq).2
    have h2 : (0 : ℚ) < MIN_DISP p := MIN_DISP_pos p
    linarith
  · intro hinv hd hq
    have h1 := (mem_validPixels.mp hq).2
    rw [hd] at h1
    exact absurd h1 (not_lt.mpr hinv)
  · intro hq
    have h1 := (mem_validPixels.mp hq).2
    have h2 : p.focalLength * p.baseline / MAX_DEPTH ≤ MIN_DISP p := le_pyMax_right _ _
    linarith

/-- C3 witness: a pixel with disparity 0 is excluded from the mask. -/
theorem mask_excludes_witness : ((0 : ℕ), (0 : ℕ)) ∉ validPixels 1 1 (fun _ => 0) pOne :=
  (mask_excludes_nonpositive_and_threshold 1 1 (fun _ => 0) pOne (0, 0)).1 (by norm_num)

/-- C3 counterexample: with a positive sentinel (invalidDataValue = 5) that
passes the disparity threshold, a pixel whose disparity equals the sentinel
still contributes a point, contradicting the claim that such a pixel is
always excluded. -/
theorem sentinel_pixel_contributes_point :
    (fun _ : ℕ × ℕ => (5 : ℚ)) (0, 0) = pInv5.invalidDataValue
    ∧ (disparity_to_pointcloud 1 1 (fun _ => 5) (fun _ => (0, 0, 0)) pInv5 1).1.length = 1 := by
  constructor
  · norm_num [pInv5]
  · norm_num [disparity_to_pointcloud, validPixels, pixelList, MIN_DISP, pyMax,
      MAX_DEPTH, pInv5, List.range_succ]

/-- C4 (confirmed): for every decimation factor k ≥ 1, the number of points
returned by disparity_to_pointcloud is the ceiling of the valid pixel count
divided by k: it equals (valid + k - 1) / k in natural division, and it is
characterized by valid ≤ count·k < valid + k. -/
theorem point_count_ceil_div (h w k : ℕ) (disp : ℕ × ℕ → ℚ) (img : ℕ × ℕ → ℚ × ℚ × ℚ)
    (p : StereoParameters) (hk : 1 ≤ k) :
    (disparity_to_pointcloud h w disp img p k).1.length
      = ((validPixels h w disp p).length + k - 1) / k
    ∧ (validPixels h w disp p).length
        ≤ (disparity_to_pointcloud h w disp img p k).1.length * k
    ∧ (disparity_to_pointcloud h w disp img p k).1.length * k
        < (validPixels h w disp p).length + k := by
  have hlen := length_pointcloud h w k disp img p hk
  refine ⟨hlen, ?_, ?_⟩
  · rw [hlen]
    rcases Nat.eq_zero_or_pos (validPixels h w disp p).length with hv0 | hv0
    · simp [hv0]
    · have hsplit : (validPixels h w disp p).length + k - 1
          = ((validPixels h w disp p).length - 1) + k := by omega
      rw [hsplit, Nat.add_div_right _ (by omega), add_mul, one_mul]
      have h2 : (validPixels h w disp p).length - 1
          < (((validPixels h w disp p).length - 1) / k + 1) * k :=
        (Nat.div_lt_iff_lt_mul (by omega)).mp (Nat.lt_succ_self _)
      rw [add_mul, one_mul] at h2
      generalize hA : ((validPixels h w disp p).length - 1) / k * k = A at h2 ⊢
      omega
  · rw [hlen]
    have h4 : ((validPixels h w disp p).length + k - 1) / k * k
        ≤ (validPixels h w disp p).length + k - 1 := Nat.div_mul_le_self _ _
    generalize hA : ((validPixels h w disp p).length + k - 1) / k * k = A at h4 ⊢
    omega

/-- C4 witness: a 2 x 2 frame with all four pixels valid and decimation 3
yields ceil(4 / 3) = 2 points. -/
theorem point_count_ceil_div_witness :
    (disparity_to_pointcloud 2 2 (fun _ => 1) (fun _ => (0, 0, 0)) pOne 3).1.length
      = ((validPixels 2 2 (fun _ => 1) pOne).length + 3 - 1) / 3
    ∧ (validPixels 2 2 (fun _ => 1) pOne).length = 4
    ∧ (disparity_to_pointcloud 2 2 (fun _ => 1) (fun _ => (0, 0, 0)) pOne 3).1.length = 2 := by
  refine ⟨(point_count_ceil_div 2 2 3 (fun _ => 1) (fun _ => (0, 0, 0)) pOne (by omega)).1, ?_, ?_⟩
  · norm_num [validPixels, pixelList, MIN_DISP, pyMax, MAX_DEPTH, pOne, List.range_succ]
  · norm_num [disparity_to_pointcloud, validPixels, pixelList, MIN_DISP, pyMax,
      MAX_DEPTH, pOne, everyNth, everyNthAux, List.range_succ]

/-- C5 counterexample: a 1 x 1 frame whose single pixel is valid, with
decimation factor 2, yields 1 point, and 1 is not at most the input pixel
count divided by the decimation factor, 1/2. -/
theorem point_count_bound_counterexample :
    ¬ (((disparity_to_pointcloud 1 1 (fun _ => 1) (fun _ => (0, 0, 0)) pOne 2).1.length : ℚ)
        ≤ (1 * 1 : ℚ) / 2) := by
  have hL : (disparity_to_pointcloud 1 1 (fun _ => 1) (fun _ => (0, 0, 0)) pOne 2).1.length = 1 := by
    norm_num [disparity_to_pointcloud, validPixels, pixelList, MIN_DISP, pyMax,
      MAX_DEPTH, pOne, everyNth, everyNthAux, List.range_succ]
  rw [hL]
  norm_num

/-- C5 (amended): for every decimation factor k ≥ 1, the number of points
returned by disparity_to_pointcloud is at most the ceiling of the input
pixel count divided by k (the bound without the ceiling fails when the
division is not exact). -/
theorem point_count_le_ceil_pixels (h w k : ℕ) (disp : ℕ × ℕ → ℚ) (img : ℕ × ℕ → ℚ × ℚ × ℚ)
    (p : StereoParameters) (hk : 1 ≤ k) :
    (disparity_to_pointcloud h w disp img p k).1.length ≤ (h * w + k - 1) / k := by
  rw [length_pointcloud h w k disp img p hk]
  have hv : (validPixels h w disp p).length ≤ h * w := by
    calc (validPixels h w disp p).length ≤ (pixelList h w).length :=
          List.length_filter_le _ _
    _ = h * w := length_pixelList h w
  exact Nat.div_le_div_right (by omega)

/-- C5 witness: the 1 x 1 frame with decimation 2 gives 1 point, within the
amended bound ceil(1 / 2) = 1. -/
theorem point_count_le_ceil_pixels_witness :
    (disparity_to_pointcloud 1 1 (fun _ => 1) (fun _ => (0, 0, 0)) pOne 2).1.length
      ≤ (1 * 1 + 2 - 1) / 2 :=
  point_count_le_ceil_pixels 1 1 2 (fun _ => 1) (fun _ => (0, 0, 0)) pOne (by omega)

end StereoDL

namespace StereoDL

/-- C2 (confirmed): for every pixel (v, u) inside the frame whose disparity
passes the validity mask, the point built by disparity_to_pointcloud equals
the standard reprojection scaled by baseline, X = baseline·(u − cu)/d,
Y = baseline·(v − cv)/d, Z = baseline·focalLength/d, with the sign flips of
the Y and Z axes applied; its color is the same pixel of the color image
with BGR reversed to RGB and normalized by 255 (hence in [0, 1] for 8-bit
channels), and the point/color pair appears in the output (paired at the
same index, shown for decimation 1 where no pixel is dropped). -/
theorem projection_formula_and_color (p : StereoParameters) (disp : ℕ × ℕ → ℚ)
    (img : ℕ × ℕ → ℚ × ℚ × ℚ) (h w v u : ℕ) (hv : v < h) (hu : u < w)
    (hd : MIN_DISP p < disp (v, u)) :
    flipPoint (reproject p (u : ℚ) (v : ℚ) (disp (v, u)))
      = (((u : ℚ) - p.principalPointU) * p.baseline / disp (v, u),
         -(((v : ℚ) - p.principalPointV) * p.baseline / disp (v, u)),
         -(p.focalLength * p.baseline / disp (v, u)))
    ∧ bgrToRgbNorm (img (v, u))
      = ((img (v, u)).2.2 / 255, (img (v, u)).2.1 / 255, (img (v, u)).1 / 255)
    ∧ ((0 ≤ (img (v, u)).1 ∧ (img (v, u)).1 ≤ 255)
        ∧ (0 ≤ (img (v, u)).2.1 ∧ (img (v, u)).2.1 ≤ 255)
        ∧ (0 ≤ (img (v, u)).2.2 ∧ (img (v, u)).2.2 ≤ 255) →
        (0 ≤ (bgrToRgbNorm (img (v, u))).1 ∧ (bgrToRgbNorm (img (v, u))).1 ≤ 1)
        ∧ (0 ≤ (bgrToRgbNorm (img (v, u))).2.1 ∧ (bgrToRgbNorm (img (v, u))).2.1 ≤ 1)
        ∧ (0 ≤ (bgrToRgbNorm (img (v, u))).2.2 ∧ (bgrToRgbNorm (img (v, u))).2.2 ≤ 1))
    ∧ (flipPoint (reproject p (u : ℚ) (v : ℚ) (disp (v, u))), bgrToRgbNorm (img (v, u)))
        ∈ ((disparity_to_pointcloud h w disp img p 1).1).zip
            ((disparity_to_pointcloud h w disp img p 1).2) := by
  refine ⟨?_, rfl, ?_, ?_⟩
  · simp only [reproject, flipPoint, mul_one_div, div_div_eq_mul_div]
  · rintro ⟨⟨hb0, hb1⟩, ⟨hg0, hg1⟩, ⟨hr0, hr1⟩⟩
    simp only [bgrToRgbNorm]
    refine ⟨⟨div_nonneg hr0 (by norm_num), ?_⟩, ⟨div_nonneg hg0 (by norm_num), ?_⟩,
      ⟨div_nonneg hb0 (by norm_num), ?_⟩⟩
    · rw [div_le_one (by norm_num)]
      exact hr1
    · rw [div_le_one (by norm_num)]
      exact hg1
    · rw [div_le_one (by norm_num)]
      exact hb1
  · have hq : (v, u) ∈ validPixels h w disp p := mem_validPixels.mpr ⟨⟨hv, hu⟩, hd⟩
    simp only [disparity_to_pointcloud, if_neg (lt_irrefl 1)]
    rw [List.zip_map']
    exact List.mem_map.mpr ⟨(v, u), hq, rfl⟩

/-- C2 witness: the single valid pixel of a 1 x 1 frame with unit
parameters appears in the output paired with its normalized color. -/
theorem projection_formula_witness :
    (flipPoint (reproject pOne ((0 : ℕ) : ℚ) ((0 : ℕ) : ℚ) 1), bgrToRgbNorm (0, 128, 255))
      ∈ ((disparity_to_pointcloud 1 1 (fun _ => 1) (fun _ => (0, 128, 255)) pOne 1).1).zip
          ((disparity_to_pointcloud 1 1 (fun _ => 1) (fun _ => (0, 128, 255)) pOne 1).2) :=
  (projection_formula_and_color pOne (fun _ => 1) (fun _ => (0, 128, 255)) 1 1 0 0
    (by omega) (by omega) (by norm_num [MIN_DISP, pyMax, MAX_DEPTH, pOne])).2.2.2

/-- C6 (confirmed): for a PointCloud of N ≥ 1 points (with its matching
color array), write_ply produces exactly the header lines ply,
format ascii 1.0, element vertex N, the six property declarations and
end_header, followed by exactly N data lines, each carrying three
coordinates and three color components in the range 0–255. -/
theorem write_ply_file_structure (points colors : List (ℚ × ℚ × ℚ)) (n : ℕ)
    (hp : points.length = n) (hc : colors.length = n) (hn : 1 ≤ n) :
    ∃ ds : List PlyLine,
      write_ply points colors = some (plyHeader n ++ ds)
      ∧ ds.length = n
      ∧ ∀ l ∈ ds, ∃ x y z r g b, l = PlyLine.data x y z r g b
          ∧ r ≤ 255 ∧ g ≤ 255 ∧ b ≤ 255 := by
  refine ⟨(points.zip colors).map fun pc =>
      PlyLine.data pc.1.1 pc.1.2.1 pc.1.2.2 (toU8 pc.2.1) (toU8 pc.2.2.1) (toU8 pc.2.2.2),
    ?_, ?_, ?_⟩
  · simp only [write_ply]
    rw [if_neg (show ¬ points.length = 0 by omega), hp]
  · rw [List.length_map, List.length_zip, hp, hc, Nat.min_self]
  · intro l hl
    rcases List.mem_map.mp hl with ⟨pc, hpc, rfl⟩
    exact ⟨pc.1.1, pc.1.2.1, pc.1.2.2, toU8 pc.2.1, toU8 pc.2.2.1, toU8 pc.2.2.2,
      rfl, toU8_le_255 _, toU8_le_255 _, toU8_le_255 _⟩

/-- C6 witness: a one-point cloud produces the ten header lines and one
data line with byte-range colors. -/
theorem write_ply_file_structure_witness :
    ∃ ds : List PlyLine,
      write_ply [((1 : ℚ), 2, 3)] [((1 : ℚ) / 2, 0, 1)] = some (plyHeader 1 ++ ds)
      ∧ ds.length = 1
      ∧ ∀ l ∈ ds, ∃ x y z r g b, l = PlyLine.data x y z r g b
          ∧ r ≤ 255 ∧ g ≤ 255 ∧ b ≤ 255 :=
  write_ply_file_structure [(1, 2, 3)] [(1 / 2, 0, 1)] 1 rfl rfl (by omega)

/-- C7 counterexample: with unit parameters and valid disparities
d1 = 1 < d2 = 2, the Z coordinate output by the projector is −1 at d1 and
−1/2 at d2, so the output Z for d1 is not greater than the output Z for d2
as the claim states — the code's sign flip negates Z. -/
theorem z_not_decreasing_counterexample :
    MIN_DISP pOne < 1 ∧ (1 : ℚ) < 2
    ∧ ¬ ((flipPoint (reproject pOne 0 0 2)).2.2 < (flipPoint (reproject pOne 0 0 1)).2.2) := by
  norm_num [reproject, flipPoint, pOne, MIN_DISP, pyMax, MAX_DEPTH]

/-- C7 (amended): for 0 < d1 < d2 with positive baseline and focal length,
the output Z coordinate is strictly increasing in d (the code negates Z),
while its magnitude — the depth baseline·focalLength/d — is strictly
decreasing in d, which is the inverse relationship the spec describes. -/
theorem z_strictly_increasing_in_disparity (p : StereoParameters) (u v d1 d2 : ℚ)
    (hb : 0 < p.baseline) (hf : 0 < p.focalLength) (h1 : 0 < d1) (h12 : d1 < d2) :
    (flipPoint (reproject p u v d1)).2.2 < (flipPoint (reproject p u v d2)).2.2
    ∧ |(flipPoint (reproject p u v d2)).2.2| < |(flipPoint (reproject p u v d1)).2.2| := by
  have h2 : 0 < d2 := lt_trans h1 h12
  have hz : ∀ d : ℚ, (flipPoint (reproject p u v d)).2.2
      = -(p.focalLength * p.baseline / d) := by
    intro d
    simp only [reproject, flipPoint, mul_one_div, div_div_eq_mul_div]
  have hfb : 0 < p.focalLength * p.baseline := mul_pos hf hb
  have hlt : p.focalLength * p.baseline / d2 < p.focalLength * p.baseline / d1 :=
    div_lt_div_of_pos_left hfb h1 h12
  constructor
  · rw [hz d1, hz d2]
    exact neg_lt_neg hlt
  · rw [hz d1, hz d2, abs_neg, abs_neg, abs_of_pos (div_pos hfb h2),
      abs_of_pos (div_pos hfb h1)]
    exact hlt

/-- C7 witness: with unit parameters, Z(1) = −1 < Z(2) = −1/2 and the
depth magnitudes satisfy 1/2 < 1. -/
theorem z_strictly_increasing_witness :
    (flipPoint (reproject pOne 0 0 1)).2.2 < (flipPoint (reproject pOne 0 0 2)).2.2
    ∧ |(flipPoint (reproject pOne 0 0 2)).2.2| < |(flipPoint (reproject pOne 0 0 1)).2.2| :=
  z_strictly_increasing_in_disparity pOne 0 0 1 2 (by norm_num [pOne])
    (by norm_num [pOne]) (by norm_num) (by norm_num)

end StereoDL

namespace ImageUtilityStereo

/-- C8 counterexample: a zero field value passes the validity mask
(0 ≤ 0 ≤ MAX_DEPTH), so the colorization sends it through the palette at
index 0 instead of forcing it to the black sentinel as the claim states. -/
theorem zero_pixel_not_black :
    colorizeDepth 0 = DisplayColor.palette 0 ∧ colorizeDepth 0 ≠ DisplayColor.black := by
  have h : colorizeDepth 0 = DisplayColor.palette 0 := by
    norm_num [colorizeDepth, npClip, pyMin, pyMax, cvRound, MAX_DEPTH]
  exact ⟨h, by simp [h]⟩

/-- C8 (amended): the colorization clips to [0, MAX_DEPTH], linearly scales
to the 8-bit range and applies the fixed palette; values outside
[0, MAX_DEPTH] (the invalid mask) are forced to black, a value at
MAX_DEPTH maps to the top palette index 255, no palette index ever exceeds
255 (so values above the maximum cannot overflow the palette), but a zero
value is not forced to black — it maps through the palette at index 0. -/
theorem colorize_clip_scale_palette (v : ℚ) :
    ((v < 0 ∨ MAX_DEPTH < v) → colorizeDepth v = DisplayColor.black)
    ∧ colorizeDepth MAX_DEPTH = DisplayColor.palette 255
    ∧ (∀ i, colorizeDepth v = DisplayColor.palette i → i ≤ 255)
    ∧ colorizeDepth 0 = DisplayColor.palette 0 := by
  refine ⟨?_, ?_, ?_, ?_⟩
  · intro hv
    simp only [colorizeDepth]
    rw [if_neg]
    rcases hv with hv | hv
    · exact fun hc => absurd hc.1 (not_le.mpr hv)
    · exact fun hc => absurd hc.2 (not_le.mpr hv)
  · norm_num [colorizeDepth, npClip, pyMin, pyMax, cvRound, MAX_DEPTH]
    decide
  · intro i hi
    simp only [colorizeDepth] at hi
    by_cases hv : 0 ≤ v ∧ v ≤ MAX_DEPTH
    · rw [if_pos hv] at hi
      injection hi with hmin
      rw [← hmin]
      exact Nat.min_le_right _ _
    · rw [if_neg hv] at hi
      exact DisplayColor.noConfusion hi
  · norm_num [colorizeDepth, npClip, pyMin, pyMax, cvRound, MAX_DEPTH]

/-- C8 witness: the value at MAX_DEPTH maps to palette index 255, and the
invalid value −1 is forced to black. -/
theorem colorize_witness :
    colorizeDepth MAX_DEPTH = DisplayColor.palette 255
    ∧ colorizeDepth (-1) = DisplayColor.black :=
  ⟨(colorize_clip_scale_palette 0).2.1,
   (colorize_clip_scale_palette (-1)).1 (Or.inl (by norm_num))⟩

end ImageUtilityStereo

namespace Refinement

/-- C9 (confirmed): the pixel distance query returns the infinity sentinel
exactly when the disparity is not strictly positive, and otherwise the
finite value focalLength·baseline / disparity. -/
theorem distance_query_sentinel (f b d : ℚ) :
    (d ≤ 0 → pixelDistance f b d = ⊤)
    ∧ (0 < d → pixelDistance f b d = ((f * b / d : ℚ) : WithTop ℚ)) := by
  constructor
  · intro hd
    simp only [pixelDistance]
    rw [if_neg (not_lt.mpr hd)]
  · intro hd
    simp only [pixelDistance]
    rw [if_pos hd]

/-- C9 witness: disparity −1 gives the infinite sentinel; disparity 4 with
focal length 2 and baseline 3 gives 3/2. -/
theorem distance_query_witness :
    pixelDistance 2 3 (-1) = ⊤ ∧ pixelDistance 2 3 4 = ((3 / 2 : ℚ) : WithTop ℚ) := by
  constructor
  · exact (distance_query_sentinel 2 3 (-1)).1 (by norm_num)
  · have h : (2 * 3 / 4 : ℚ) = 3 / 2 := by norm_num
    rw [(distance_query_sentinel 2 3 4).2 (by norm_num), h]

end Refinement

namespace FileAccessUserSet

/-- C10 (confirmed): when the first argument matches upload or download
only case-insensitively (not exactly in lowercase), parse_args accepts the
invocation and returns it unchanged, yet main dispatches by exact
comparison, performs neither operation, and still prints the success
message. -/
theorem case_mismatch_skips_operation (a0 f : String) (dOk uOk : Bool)
    (hl : pyLower a0 = "upload" ∨ pyLower a0 = "download")
    (h1 : a0 ≠ "upload") (h2 : a0 ≠ "download") :
    parse_args [a0, f] = some [a0, f]
    ∧ mainRun [a0, f] dOk uOk = some (none, successMsg) := by
  have hp : parse_args [a0, f] = some [a0, f] := by
    rcases hl with hl | hl <;> simp [parse_args, hl]
  refine ⟨hp, ?_⟩
  simp [mainRun, hp, h1, h2]

/-- C10 witness: the invocation with first argument Upload is accepted by
parse_args, runs no file operation, and prints the success message. -/
theorem case_mismatch_witness :
    parse_args ["Upload", "settings.bin"] = some ["Upload", "settings.bin"]
    ∧ mainRun ["Upload", "settings.bin"] true true = some (none, successMsg) :=
  case_mismatch_skips_operation "Upload" "settings.bin" true true
    (Or.inl (by decide)) (by decide) (by decide)

end FileAccessUserSet
